import Mathlib

/-!
Verification development for the Fynd review-collection app.

The embedding models, from the repository sources:
* `app.py` — the user-dashboard submit handler (validation, enrichment with
  rule-based fallbacks, append with local-backup degradation);
* `utils/gemini_helper.py` — `genai_generate_text` and its retry wrapper;
* `utils/sheets_helper.py` — `sheet_to_df` and `update_submission_by_id`
  over a worksheet (header row plus data rows of string cells);
* `notebooks/task1_rating_prompts.py` — the per-row raw-output parse and the
  per-template summary computation of the prompt-evaluation harness.

External collaborators (Streamlit widgets, the network, pandas I/O, the
gspread transport, the Gemini SDK objects) are modelled at the interfaces the
code uses: a gateway is a function from a prompt to an `(ok, text)` pair, a
remote response is one of the shapes `_extract_text_from_response` matches
on, and exceptions raised by a collaborator are explicit values.
-/

set_option autoImplicit false
set_option maxRecDepth 8000
set_option linter.unusedVariables false

namespace Fynd

/-! ## Python string primitives -/

/-- The characters Python's `str.strip()` removes (ASCII whitespace). -/
def pyWsChar (c : Char) : Bool :=
  c == ' ' || c == '\t' || c == '\n' || c == '\r' || c == '\x0b' || c == '\x0c'

/-- Python `s.strip()`. -/
def pyStrip (s : String) : String :=
  ⟨((s.data.dropWhile pyWsChar).reverse.dropWhile pyWsChar).reverse⟩

/-- Python `s.lower()` (ASCII case folding, as used on the review text). -/
def pyLower (s : String) : String :=
  ⟨s.data.map Char.toLower⟩

/-- Python `s[:n]`. -/
def pySlice (s : String) (n : Nat) : String :=
  ⟨s.data.take n⟩

/-- Is `n` a prefix of some suffix of the second list starting here? -/
def infixAt (n : List Char) : List Char → Bool
  | [] => n.isEmpty
  | c :: t => n.isPrefixOf (c :: t) || infixAt n t

/-- Python `needle in hay` (substring containment). -/
def containsSub (hay needle : String) : Bool :=
  infixAt needle.data hay.data

/-! ## `app.py` — the submit handler -/

/-- One persisted submission record (the `row` dict built in `app.py`). -/
structure Row where
  id : String
  timestamp : String
  rating : Int
  review : String
  ai_response : String
  ai_summary : String
  ai_actions : String
deriving DecidableEq, Repr

/-- The store as the handler sees it: the remote sheet contents, whether
`append_submission` raises (and with which message), and the local backup
CSV (`none` when `data/submissions_backup.csv` does not exist). -/
structure PipeStore where
  remote : List Row
  appendError : Option String
  backup : Option (List Row)
deriving DecidableEq, Repr

/-- Terminal state of one submit interaction. -/
inductive SubmitOutcome where
  | rejected
  | saved (row : Row)
  | backedUp (row : Row)
deriving DecidableEq, Repr

/-- Result of running the submit handler once: the terminal outcome, the
enriched record if one was built, how many Gateway calls were made, the
resulting store, and the messages surfaced to the user
(`st.warning` / `st.success` / `st.error` / `st.info`). -/
structure SubmitResult where
  outcome : SubmitOutcome
  enriched : Option Row
  gatewayCalls : Nat
  store : PipeStore
  messages : List String
deriving DecidableEq, Repr

def fallbackReply : String :=
  "Thanks for your feedback! We appreciate you taking the time to write us. (AI currently unavailable.)"

def speedBullet : String := "- Investigate service speed and staffing."
def foodBullet : String := "- Check food preparation & temperature controls."
def staffBullet : String := "- Provide staff training on customer service."
def genericBullet : String := "- Thank the customer and ask for more details."

/-- The rule-based actions fallback of `app.py` (lines 36-46): keyword scans
over the lower-cased review, appended in declaration order, with a generic
bullet when nothing matched, joined by newlines. -/
def fallbackActions (review : String) : String :=
  let low := pyLower review
  let s1 : List String :=
    if ["slow", "wait", "waiting", "delay"].any (fun w => containsSub low w)
    then [speedBullet] else []
  let s2 : List String :=
    if ["cold", "undercooked", "burnt", "temperature"].any (fun w => containsSub low w)
    then [foodBullet] else []
  let s3 : List String :=
    if ["rude", "unfriendly", "hostile"].any (fun w => containsSub low w)
    then [staffBullet] else []
  let suggestions := s1 ++ s2 ++ s3
  let suggestions := if suggestions.isEmpty then [genericBullet] else suggestions
  String.intercalate "\n" suggestions

/-- The `app.py` submit handler (lines 18-77). `gw` is `genai_generate_text`
viewed at its `(ok, text)` contract; `freshId` and `now` stand for
`uuid.uuid4()` and `datetime.utcnow().isoformat()`. -/
def submitReview (gw : String → Bool × String) (freshId now : String)
    (rating : Int) (review : String) (st0 : PipeStore) : SubmitResult :=
  if pyStrip review = "" then
    { outcome := .rejected, enriched := none, gatewayCalls := 0, store := st0,
      messages := ["Please write a short review before submitting."] }
  else
    let okR := gw ("Write a short friendly reply (1-2 sentences) to this review: \"" ++ review ++ "\"")
    let okS := gw ("Summarize the review in one short sentence: \"" ++ review ++ "\"")
    let okA := gw ("Give up to 3 recommended actions (bullet points) a business owner should take based on: \"" ++ review ++ "\"")
    let ai_response := if okR.1 then okR.2 else fallbackReply
    let ai_summary := if okS.1 then okS.2 else pySlice (pyStrip review) 200
    let ai_actions := if okA.1 then okA.2 else fallbackActions review
    let row : Row :=
      { id := freshId, timestamp := now, rating := rating, review := review,
        ai_response := ai_response, ai_summary := ai_summary, ai_actions := ai_actions }
    match st0.appendError with
    | none =>
      { outcome := .saved row, enriched := some row, gatewayCalls := 3,
        store := { st0 with remote := st0.remote ++ [row] },
        messages := ["Submitted — AI reply shown below."] }
    | some e =>
      { outcome := .backedUp row, enriched := some row, gatewayCalls := 3,
        store := { st0 with backup := some (st0.backup.getD [] ++ [row]) },
        messages := ["Failed to save submission to Google Sheets: " ++ e,
                     "Saved to local backup: data/submissions_backup.csv"] }

/-! ## `utils/gemini_helper.py` — the Text-Generation Gateway -/

/-- A response from the remote generation service, classified by the shape
`_extract_text_from_response` matches on (the ordered duck-typed branches of
`gemini_helper.py` lines 22-78). The `to_dict` / `to_json` / `result`
branches re-enter the same matcher, so they are covered by the dict shapes. -/
inductive GenResp where
  | plainStr (s : String)
  | textAttr (t : String)
  | candidatesParts (parts : List String)
  | candidatesText (t : String)
  | dictParts (parts : List String)
  | dictText (t : String)
  | dictOutput (s : String)
  | unrecognized (tyRepr : String)
deriving DecidableEq, Repr

/-- `_extract_text_from_response`: normalizes every known shape to a string,
returning `(ok, text, debug)`; a `None` text is modelled as `""` (both fail
the `if ok and text` test in the caller). -/
def extractText : GenResp → Bool × String × String
  | .plainStr s => (true, s, "str")
  | .textAttr t => (true, t, "has .text")
  | .candidatesParts ps => (true, String.join ps, "candidates->content.parts")
  | .candidatesText t => (true, t, "candidates->text")
  | .dictParts ps => (true, String.join ps, "dict candidates->content.parts")
  | .dictText t => (true, t, "dict->text")
  | .dictOutput s => (true, s, "dict->output")
  | .unrecognized r => (false, "", "unrecognized-response-type: " ++ r)

/-- Outcome of one remote call: the transport either raises an exception
(carrying `repr(exc)`) or returns a response object. -/
inductive CallOutcome where
  | raises (e : String)
  | returns (resp : GenResp)
deriving DecidableEq, Repr

/-- The `genai.Client()` singleton as `genai_generate_text` uses it.
`generateContent` is `CLIENT.models.generate_content`, indexed by how many
times it has been invoked so far (so a flaky transport can fail on one
attempt and succeed on the next); `hasGenerate` / `hasModelsGenerate` model
the `hasattr` probes for the two legacy fallback entry points. -/
structure GenaiClient where
  generateContent : Nat → String → CallOutcome
  hasGenerate : Bool
  generate : String → CallOutcome
  hasModelsGenerate : Bool
  modelsGenerate : String → CallOutcome

/-- One execution of the body of `genai_generate_text` (lines 82-112): the
whole body sits in `try ... except Exception`, so it always returns a pair
and never lets an exception escape. -/
def genaiAttempt (c : GenaiClient) (attempt : Nat) (prompt : String) : Bool × String :=
  match c.generateContent attempt prompt with
  | .raises e =>
      (false, "ERROR: Gemini call failed: " ++ e ++ ". See logs/last_genai_error.txt")
  | .returns resp =>
      let ext := extractText resp
      if ext.1 && ext.2.1 ≠ "" then (true, ext.2.1)
      else
        let alt1 : Option (Bool × String) :=
          if c.hasGenerate then
            match c.generate prompt with
            | .raises _ => none
            | .returns r =>
                let e1 := extractText r
                if e1.1 && e1.2.1 ≠ "" then some (true, e1.2.1) else none
          else none
        match alt1 with
        | some res => res
        | none =>
          let alt2 : Option (Bool × String) :=
            if c.hasModelsGenerate then
              match c.modelsGenerate prompt with
              | .raises _ => none
              | .returns r =>
                  let e2 := extractText r
                  if e2.1 && e2.2.1 ≠ "" then some (true, e2.2.1) else none
            else none
          match alt2 with
          | some res => res
          | none =>
              (false, "ERROR: Unexpected response shape from Gemini SDK. debug=" ++ ext.2.2)

/-- A Python call result: a normal return or a raised exception. -/
inductive PyResult (α : Type) where
  | ok (a : α)
  | exn (e : String)
deriving DecidableEq, Repr

/-- The tenacity `@retry(stop=stop_after_attempt(limit))` wrapper: re-invokes
the body while it raises, up to `limit` total attempts, then re-raises.
Returns the final result together with the number of attempts consumed. -/
def retryLoop {α : Type} (body : Nat → PyResult α) : Nat → Nat → PyResult α × Nat
  | 0, attempt => (.exn "RetryError", attempt)
  | n + 1, attempt =>
    match body attempt with
    | .ok a => (.ok a, attempt + 1)
    | .exn e => if n = 0 then (.exn e, attempt + 1) else retryLoop body n (attempt + 1)

/-- `genai_generate_text(prompt, temperature=0.0, max_output_tokens=250)`:
the retry-decorated body. The body catches every exception itself, so each
attempt returns normally. `temperature` and `max_output_tokens` are taken
but, as in the source, never used. -/
def genai_generate_text (c : GenaiClient) (prompt : String)
    (temperature : Rat) (max_output_tokens : Nat) : PyResult (Bool × String) × Nat :=
  retryLoop (fun attempt => PyResult.ok (genaiAttempt c attempt prompt)) 3 0

/-! ## `utils/sheets_helper.py` — the Submission Store

A worksheet is its header row plus the data rows, all cells strings (the
gspread transport is the external collaborator; `row_values(1)` returns the
header, `get_all_records()` the data rows keyed by the header, with `""` for
cells a short row does not reach).
-/

/-- A gspread worksheet: row 1 is `header`, rows 2.. are `rows`. -/
structure Worksheet where
  header : List String
  rows : List (List String)
deriving DecidableEq, Repr

/-- Python `list.index` as an option (first occurrence). -/
def idxOf? (a : String) : List String → Option Nat
  | [] => none
  | b :: t => if b == a then some 0 else (idxOf? a t).map (· + 1)

/-- Set position `j` of a cell row, padding with `""` if the row is shorter
(the remote sheet materializes the cell being written). -/
def setCell : List String → Nat → String → List String
  | _ :: cs, 0, v => v :: cs
  | [], 0, v => [v]
  | [], n + 1, v => "" :: setCell [] n v
  | c :: cs, n + 1, v => c :: setCell cs n v

/-- Apply `f` to the row at position `i` (no-op when out of range). -/
def setRow : List (List String) → Nat → (List String → List String) → List (List String)
  | [], _, _ => []
  | r :: rs, 0, f => f r :: rs
  | r :: rs, n + 1, f => r :: setRow rs n f

/-- gspread `ws.update_cell(rowIdx, colIdx, v)` (1-based; row 1 is the
header row). -/
def update_cell (ws : Worksheet) (rowIdx colIdx : Nat) (v : String) : Worksheet :=
  if rowIdx = 1 then { ws with header := setCell ws.header (colIdx - 1) v }
  else { ws with rows := setRow ws.rows (rowIdx - 2) (fun r => setCell r (colIdx - 1) v) }

/-- `str(rec.get("id"))` for a record produced by `get_all_records`: the cell
under the first `id` header column, or `"None"` when there is no such
column (Python `str(None)`). -/
def recordIdStr (header : List String) (row : List String) : String :=
  match idxOf? "id" header with
  | some j => row.getD j ""
  | none => "None"

/-- The row-matching test of `update_submission_by_id`:
`str(rec.get("id")) == str(sub_id)`. -/
def idMatches (header : List String) (subId : String) (row : List String) : Bool :=
  recordIdStr header row == subId

/-- First index satisfying `p` (the `for idx, rec in enumerate(records)`
scan, which stops at the first match). -/
def findIdxM (p : List String → Bool) : List (List String) → Option Nat
  | [] => none
  | r :: rs => if p r then some 0 else (findIdxM p rs).map (· + 1)

/-- The inner update loop of `update_submission_by_id` (lines 263-266): for
each `(key, val)` of `updates`, if `key` is in the snapshotted header,
`update_cell(idx, header.index(key)+1, val)`. -/
def applyUpdates (header : List String) (rowIdx : Nat) :
    List (String × String) → Worksheet → Worksheet
  | [], ws => ws
  | (k, v) :: rest, ws =>
    let ws2 :=
      match idxOf? k header with
      | some j => update_cell ws rowIdx (j + 1) v
      | none => ws
    applyUpdates header rowIdx rest ws2

/-- `update_submission_by_id(sub_id, updates)` (lines 255-268): scans the
records for the first row whose `id` matches, updates the named cells of
that spreadsheet row, and reports whether a row was found. `updates` is the
dict in iteration order. -/
def update_submission_by_id (ws : Worksheet) (subId : String)
    (updates : List (String × String)) : Bool × Worksheet :=
  if ws.rows.isEmpty then (false, ws)
  else
    match findIdxM (idMatches ws.header subId) ws.rows with
    | some i => (true, applyUpdates ws.header (i + 2) updates ws)
    | none => (false, ws)

/-- The fixed expected column set of `sheet_to_df`. -/
def expectedCols : List String :=
  ["id", "timestamp", "rating", "review", "ai_response", "ai_summary", "ai_actions"]

/-- `sheet_to_df()` (lines 225-235): returns `(columns, rows)`. Zero data
rows give the empty frame with the expected columns; otherwise each record
is re-expressed over exactly the expected columns, a column absent from the
backing header materializing as `""`. -/
def sheet_to_df (ws : Worksheet) : List String × List (List String) :=
  if ws.rows = [] then (expectedCols, [])
  else
    (expectedCols,
      ws.rows.map (fun r =>
        expectedCols.map (fun c =>
          match idxOf? c ws.header with
          | some j => r.getD j ""
          | none => "")))

/-! ## `notebooks/task1_rating_prompts.py` — the Evaluation Harness

`json.loads` is modelled by a strict JSON reader over the character list:
objects, arrays, strings with the standard escapes, integers and
decimal/exponent numbers (kept as exact rationals), `true`/`false`/`null`.
Python `dict` lookup keeps the last duplicate key. The reader is fuelled by
the input length (every recursive call first consumes a character, so the
fuel never runs out on a real input).
-/

/-- A parsed JSON value. Python `bool` is a distinct constructor because
`isinstance(True, int)` holds in Python while `json.loads` still produces a
`bool`; a float literal is carried as the exact fraction `num / den` it
denotes (so `4.7` is `jfloat 47 10`). -/
inductive JValue where
  | null
  | bool (b : Bool)
  | jint (n : Int)
  | jfloat (num : Int) (den : Nat)
  | str (s : String)
  | arr (xs : List JValue)
  | obj (kvs : List (String × JValue))

/-- JSON whitespace. -/
def jsonWs (c : Char) : Bool :=
  c == ' ' || c == '\t' || c == '\n' || c == '\r'

def skipWs (cs : List Char) : List Char := cs.dropWhile jsonWs

def hexDigit? (c : Char) : Option Nat :=
  if '0' ≤ c ∧ c ≤ '9' then some (c.toNat - 48)
  else if 'a' ≤ c ∧ c ≤ 'f' then some (c.toNat - 87)
  else if 'A' ≤ c ∧ c ≤ 'F' then some (c.toNat - 55)
  else none

def hex4? (a b c d : Char) : Option Nat :=
  match hexDigit? a, hexDigit? b, hexDigit? c, hexDigit? d with
  | some x, some y, some z, some w => some (((x * 16 + y) * 16 + z) * 16 + w)
  | _, _, _, _ => none

def digitsToNat (ds : List Char) : Nat :=
  ds.foldl (fun a c => a * 10 + (c.toNat - 48)) 0

/-- Optional exponent part of a JSON number: returns `(exponent?, rest)`. -/
def parseExp : List Char → Option (Option Int × List Char)
  | 'e' :: r => parseExpTail r
  | 'E' :: r => parseExpTail r
  | cs => some (none, cs)
where
  parseExpTail (r : List Char) : Option (Option Int × List Char) :=
    let (sgn, r1) : Int × List Char :=
      match r with
      | '+' :: t => (1, t)
      | '-' :: t => (-1, t)
      | _ => (1, r)
    let (ds, r2) := r1.span Char.isDigit
    if ds.isEmpty then none else some (some (sgn * (digitsToNat ds : Int)), r2)

/-- Build the float value denoted by `-? ids . fds e?` as an exact
fraction: mantissa over `10^|fds|`, scaled by the power of ten of the
exponent. -/
def mkFloat (neg : Bool) (ids fds : List Char) (e : Option Int) : JValue :=
  let m0 : Int := (digitsToNat (ids ++ fds) : Int)
  let m : Int := if neg then -m0 else m0
  let den0 : Nat := 10 ^ fds.length
  match e.getD 0 with
  | Int.ofNat k => .jfloat (m * ((10 ^ k : Nat) : Int)) den0
  | Int.negSucc k => .jfloat m (den0 * 10 ^ (k + 1))

/-- A strict JSON number: `-? (0 | [1-9][0-9]*) (.digits)? ([eE][+-]?digits)?`.
Integral literals give `jint`, any fraction or exponent gives `jfloat`. -/
def parseNumber (cs : List Char) : Option (JValue × List Char) :=
  let (neg, cs1) : Bool × List Char :=
    match cs with
    | '-' :: r => (true, r)
    | _ => (false, cs)
  let (ids, r1) := cs1.span Char.isDigit
  if ids.isEmpty then none
  else if 2 ≤ ids.length ∧ ids.headD '0' == '0' then none
  else
    match r1 with
    | '.' :: rr =>
      let (fds, r2) := rr.span Char.isDigit
      if fds.isEmpty then none
      else
        match parseExp r2 with
        | some (eOpt, r3) => some (mkFloat neg ids fds eOpt, r3)
        | none => none
    | _ =>
      match parseExp r1 with
      | some (none, r3) =>
          some (.jint (if neg then -(digitsToNat ids : Int) else (digitsToNat ids : Int)), r3)
      | some (some e, r3) => some (mkFloat neg ids [] (some e), r3)
      | none => none

mutual

/-- One JSON value, fuelled. -/
def parseValue : Nat → List Char → Option (JValue × List Char)
  | 0, _ => none
  | f + 1, cs0 =>
    match skipWs cs0 with
    | '{' :: r =>
      (match skipWs r with
       | '}' :: r2 => some (.obj [], r2)
       | r1 =>
         match parseMembers f [] r1 with
         | some (kvs, rest) => some (.obj kvs, rest)
         | none => none)
    | '[' :: r =>
      (match skipWs r with
       | ']' :: r2 => some (.arr [], r2)
       | r1 =>
         match parseElems f [] r1 with
         | some (vs, rest) => some (.arr vs, rest)
         | none => none)
    | '"' :: r =>
      (match parseJStr f [] r with
       | some (s, rest) => some (.str s, rest)
       | none => none)
    | 't' :: 'r' :: 'u' :: 'e' :: r => some (.bool true, r)
    | 'f' :: 'a' :: 'l' :: 's' :: 'e' :: r => some (.bool false, r)
    | 'n' :: 'u' :: 'l' :: 'l' :: r => some (.null, r)
    | cs => parseNumber cs

/-- Members of an object after the opening brace (at least one). -/
def parseMembers : Nat → List (String × JValue) → List Char →
    Option (List (String × JValue) × List Char)
  | 0, _, _ => none
  | f + 1, acc, cs =>
    match skipWs cs with
    | '"' :: r =>
      (match parseJStr f [] r with
       | some (k, r1) =>
         (match skipWs r1 with
          | ':' :: r2 =>
            (match parseValue f r2 with
             | some (v, r3) =>
               (match skipWs r3 with
                | ',' :: r4 => parseMembers f (acc ++ [(k, v)]) r4
                | '}' :: r4 => some (acc ++ [(k, v)], r4)
                | _ => none)
             | none => none)
          | _ => none)
       | none => none)
    | _ => none

/-- Elements of an array after the opening bracket (at least one). -/
def parseElems : Nat → List JValue → List Char → Option (List JValue × List Char)
  | 0, _, _ => none
  | f + 1, acc, cs =>
    match parseValue f cs with
    | some (v, r1) =>
      (match skipWs r1 with
       | ',' :: r2 => parseElems f (acc ++ [v]) r2
       | ']' :: r2 => some (acc ++ [v], r2)
       | _ => none)
    | none => none

/-- A JSON string body after the opening quote. -/
def parseJStr : Nat → List Char → List Char → Option (String × List Char)
  | 0, _, _ => none
  | f + 1, acc, cs =>
    match cs with
    | [] => none
    | '"' :: r => some (⟨acc.reverse⟩, r)
    | '\\' :: r =>
      (match r with
       | '"' :: r2 => parseJStr f ('"' :: acc) r2
       | '\\' :: r2 => parseJStr f ('\\' :: acc) r2
       | '/' :: r2 => parseJStr f ('/' :: acc) r2
       | 'b' :: r2 => parseJStr f ('\x08' :: acc) r2
       | 'f' :: r2 => parseJStr f ('\x0c' :: acc) r2
       | 'n' :: r2 => parseJStr f ('\n' :: acc) r2
       | 'r' :: r2 => parseJStr f ('\r' :: acc) r2
       | 't' :: r2 => parseJStr f ('\t' :: acc) r2
       | 'u' :: a :: b :: c :: d :: r2 =>
         (match hex4? a b c d with
          | some n => parseJStr f (Char.ofNat n :: acc) r2
          | none => none)
       | _ => none)
    | c :: r => if c.toNat < 32 then none else parseJStr f (c :: acc) r

end

/-- Python `json.loads`: parse one value and require only trailing
whitespace after it. -/
def jsonLoads (s : String) : Option JValue :=
  match parseValue (s.data.length + 2) s.data with
  | some (v, rest) => if (skipWs rest).isEmpty then some v else none
  | none => none

/-- Python dict lookup for the assoc list built by the object reader: the
last duplicate key wins, as in `dict` construction. -/
def jGet (kvs : List (String × JValue)) (k : String) : Option JValue :=
  kvs.foldl (fun acc kv => if kv.1 == k then some kv.2 else acc) none

/-- Truncation toward zero, Python `int(float)` on the exact fraction. -/
def pyTruncFrac (num : Int) (den : Nat) : Int := Int.tdiv num (den : Int)

/-- Python `int(str)`: optional surrounding whitespace, optional sign,
nonempty digit run. -/
def pyIntOfString (s : String) : Option Int :=
  let cs := ((s.data.dropWhile pyWsChar).reverse.dropWhile pyWsChar).reverse
  let (neg, ds) : Bool × List Char :=
    match cs with
    | '+' :: t => (false, t)
    | '-' :: t => (true, t)
    | t => (false, t)
  if ds.isEmpty ∨ ¬ ds.all Char.isDigit then none
  else some (if neg then -(digitsToNat ds : Int) else (digitsToNat ds : Int))

/-- Python `isinstance(ps, int)` view of a value fetched from the parsed
dict: `int`s and `bool`s (a subclass of `int`) qualify; a missing key is
Python `None`. -/
def pyIsInt : Option JValue → Option Int
  | some (.jint n) => some n
  | some (.bool b) => some (if b then 1 else 0)
  | _ => none

/-- Python `int(ps)` on the fetched value: identity on ints/bools, truncation
on floats, string parsing on numeric strings; everything else raises (and
the notebook catches that as invalid). -/
def pyIntCoerce : Option JValue → Option Int
  | some (.jint n) => some n
  | some (.bool b) => some (if b then 1 else 0)
  | some (.jfloat num den) => some (pyTruncFrac num den)
  | some (.str s) => pyIntOfString s
  | _ => none

/-- `s.find(c)` as an option over the character list. -/
def listFindIdx (p : Char → Bool) : List Char → Option Nat
  | [] => none
  | c :: t => if p c then some 0 else (listFindIdx p t).map (· + 1)

/-- `s.rfind(c)` as an option. -/
def listFindLastIdx (p : Char → Bool) (cs : List Char) : Option Nat :=
  (listFindIdx p cs.reverse).map (fun i => cs.length - 1 - i)

/-- `s[start:end+1]` for `start = s.find('\x7b')`, `end = s.rfind('\x7d')`,
or `none` when either brace is missing (the notebook's lines 63-65). -/
def braceSub (s : String) : Option String :=
  match listFindIdx (· == '{') s.data, listFindLastIdx (· == '}') s.data with
  | some st, some en => some ⟨(s.data.drop st).take (en + 1 - st)⟩
  | _, _ => none

/-- The per-row parse of the evaluation loop (notebook lines 58-80): slice
between the first `\x7b` and the last `\x7d`, `json.loads` it, fetch
`predicted_stars`, accept an `int` in `[1,5]` directly and otherwise try
`int(ps)`; every failure marks the row invalid with no prediction. Returns
`(pred, valid)` as appended to the two result lists. -/
def parseRow (s : String) : Option Int × Bool :=
  match braceSub s with
  | none => (none, false)
  | some sub =>
    match jsonLoads sub with
    | some (JValue.obj kvs) =>
      let ps := jGet kvs "predicted_stars"
      (match pyIsInt ps with
       | some n =>
         if 1 ≤ n ∧ n ≤ 5 then (some n, true)
         else
           (match pyIntCoerce ps with
            | some i => if 1 ≤ i ∧ i ≤ 5 then (some i, true) else (none, false)
            | none => (none, false))
       | none =>
         (match pyIntCoerce ps with
          | some i => if 1 ≤ i ∧ i ≤ 5 then (some i, true) else (none, false)
          | none => (none, false)))
    | _ => (none, false)

/-- One evaluated sample row: the labelled star rating joined with the
parse outcome for one template. -/
structure EvalRow where
  true_stars : Int
  pred : Option Int
  valid : Bool
deriving DecidableEq, Repr

/-- The rows a template's run produces over the sample: true labels zipped
with the parse of each raw output. -/
def evalRows (stars : List Int) (outs : List String) : List EvalRow :=
  List.zipWith (fun t o => { true_stars := t, pred := (parseRow o).1, valid := (parseRow o).2 }) stars outs

/-- `json_valid_rate = sum(valid_mask)/len(valid_mask)` (notebook line 88). -/
def jsonValidRateOf (rows : List EvalRow) : Rat :=
  ((rows.filter (·.valid)).length : Rat) / (rows.length : Rat)

/-- `acc = None; if len(valid_rows)>0: acc = accuracy_score(...)` (notebook
lines 89-92): the fraction of valid rows whose prediction equals the label,
absent when there are no valid rows. -/
def accuracyOf (rows : List EvalRow) : Option Rat :=
  let validRows := rows.filter (·.valid)
  if 0 < validRows.length then
    some (((validRows.filter (fun r => r.pred == some r.true_stars)).length : Rat) /
      (validRows.length : Rat))
  else none

/-- One summary-table entry for a template: `(JSON_valid_rate, Accuracy)`. -/
def summaryFor (rows : List EvalRow) : Rat × Option Rat :=
  (jsonValidRateOf rows, accuracyOf rows)

/-! ## Spec-side formulations

These definitions follow the specification's words (not the source) and are
compared with the source-derived definitions above.
-/

/-- The keyword rule set exactly as the spec states it: one bullet per rule,
rules `{slow/wait/delay}`, `{cold/undercooked/burnt/temperature}`,
`{rude/unfriendly/hostile}`, in declaration order. -/
def claimKeywordRules : List (List String × String) :=
  [(["slow", "wait", "delay"], speedBullet),
   (["cold", "undercooked", "burnt", "temperature"], foodBullet),
   (["rude", "unfriendly", "hostile"], staffBullet)]

/-- The actions fallback as the spec describes it: the newline-separated
bullets of the rules matching the lower-cased review, in declaration order,
or the single generic bullet when no rule matches. -/
def claimActions (review : String) : String :=
  let low := pyLower review
  let matched := (claimKeywordRules.filter (fun rule => rule.1.any (fun w => containsSub low w))).map Prod.snd
  String.intercalate "\n" (if matched.isEmpty then [genericBullet] else matched)

/-! ## Lemmas about substring containment and the keyword rules -/

theorem isPrefixOf_append_left {l1 l2 cs : List Char}
    (h : (l1 ++ l2).isPrefixOf cs = true) : l1.isPrefixOf cs = true := by
  induction l1 generalizing cs with
  | nil => simp [List.isPrefixOf]
  | cons a t ih =>
    cases cs with
    | nil => simp [List.isPrefixOf] at h
    | cons b bs =>
      simp only [List.cons_append, List.isPrefixOf, Bool.and_eq_true] at h ⊢
      exact ⟨h.1, ih h.2⟩

theorem infixAt_append_left {l1 l2 hay : List Char}
    (h : infixAt (l1 ++ l2) hay = true) : infixAt l1 hay = true := by
  induction hay with
  | nil =>
    simp only [infixAt, List.isEmpty_iff, List.append_eq_nil] at h ⊢
    exact h.1
  | cons c t ih =>
    simp only [infixAt, Bool.or_eq_true] at h ⊢
    rcases h with h | h
    · exact Or.inl (isPrefixOf_append_left h)
    · exact Or.inr (ih h)

theorem containsSub_waiting_wait {low : String}
    (h : containsSub low "waiting" = true) : containsSub low "wait" = true := by
  have heq : ("waiting".data : List Char) = "wait".data ++ "ing".data := by decide
  unfold containsSub at h ⊢
  rw [heq] at h
  exact infixAt_append_left h

/-- The source's first keyword list (with the redundant `"waiting"`) matches
exactly the same reviews as the spec's `{slow/wait/delay}`. -/
theorem any_speed_keywords_eq (low : String) :
    (["slow", "wait", "waiting", "delay"].any (fun w => containsSub low w)) =
      (["slow", "wait", "delay"].any (fun w => containsSub low w)) := by
  simp only [List.any_cons, List.any_nil, Bool.or_false]
  cases hw : containsSub low "waiting" with
  | false => simp
  | true =>
    have := containsSub_waiting_wait hw
    simp [this]

/-- The handler's actions fallback equals the spec-worded rule evaluation. -/
theorem fallbackActions_eq_claimActions (review : String) :
    fallbackActions review = claimActions review := by
  unfold fallbackActions claimActions claimKeywordRules
  cases h1 : (["slow", "wait", "waiting", "delay"].any (fun w => containsSub (pyLower review) w)) <;>
    cases h2 : (["cold", "undercooked", "burnt", "temperature"].any (fun w => containsSub (pyLower review) w)) <;>
      cases h3 : (["rude", "unfriendly", "hostile"].any (fun w => containsSub (pyLower review) w)) <;>
        · have h1s := (any_speed_keywords_eq (pyLower review)).symm.trans h1
          simp [h1, h2, h3, h1s, List.filter]

/-- Every value `fallbackActions` can take is a nonempty string. -/
theorem fallbackActions_ne_empty (review : String) : fallbackActions review ≠ "" := by
  unfold fallbackActions
  cases h1 : (["slow", "wait", "waiting", "delay"].any (fun w => containsSub (pyLower review) w)) <;>
    cases h2 : (["cold", "undercooked", "burnt", "temperature"].any (fun w => containsSub (pyLower review) w)) <;>
      cases h3 : (["rude", "unfriendly", "hostile"].any (fun w => containsSub (pyLower review) w)) <;>
        simp [h1, h2, h3] <;> decide

/-! ## Spec-side validity for the Evaluation Harness -/

/-- The combined star extraction the code performs: accept a Python `int`
(including `bool`) in range directly, otherwise fall back to `int(ps)`. -/
def pyCoerceStars (ps : Option JValue) : Option Int :=
  match pyIsInt ps with
  | some n => if 1 ≤ n ∧ n ≤ 5 then some n else pyIntCoerce ps
  | none => pyIntCoerce ps

/-- Row validity as the code determines it, stated shape-first: the brace
substring parses as a JSON object and the Python-int view or `int(...)`
coercion of its `predicted_stars` lands in `[1,5]`. -/
def specValidity (s : String) : Bool :=
  match braceSub s with
  | none => false
  | some sub =>
    match jsonLoads sub with
    | some (JValue.obj kvs) =>
      (match pyCoerceStars (jGet kvs "predicted_stars") with
       | some n => decide (1 ≤ n ∧ n ≤ 5)
       | none => false)
    | _ => false

/-- Row validity exactly as the claim words it: parse succeeds and the
extracted `predicted_stars` is an integer in `[1,5]`, accepting
numeric-string coercion as a fallback before marking invalid. -/
def claimValidityStrict (s : String) : Bool :=
  match braceSub s with
  | none => false
  | some sub =>
    match jsonLoads sub with
    | some (JValue.obj kvs) =>
      (match jGet kvs "predicted_stars" with
       | some (.jint n) => decide (1 ≤ n ∧ n ≤ 5)
       | some (.str t) =>
         (match pyIntOfString t with
          | some n => decide (1 ≤ n ∧ n ≤ 5)
          | none => false)
       | _ => false)
    | _ => false

theorem pyIntCoerce_of_pyIsInt {ps : Option JValue} {n : Int}
    (h : pyIsInt ps = some n) : pyIntCoerce ps = some n := by
  match ps with
  | some (.jint m) => simpa [pyIsInt, pyIntCoerce] using h
  | some (.bool b) => simpa [pyIsInt, pyIntCoerce] using h
  | some (.jfloat num den) => simp [pyIsInt] at h
  | some (.str t) => simp [pyIsInt] at h
  | some .null => simp [pyIsInt] at h
  | some (.arr xs) => simp [pyIsInt] at h
  | some (.obj kvs) => simp [pyIsInt] at h
  | none => simp [pyIsInt] at h

/-- The validity flag the loop records coincides with `specValidity`. -/
theorem parseRow_snd_eq_specValidity (s : String) :
    (parseRow s).2 = specValidity s := by
  unfold parseRow specValidity pyCoerceStars
  cases hb : braceSub s with
  | none => simp
  | some sub =>
    cases hj : jsonLoads sub with
    | none => simp [hj]
    | some v =>
      cases v with
      | obj kvs =>
        simp only [hj]
        cases hint : pyIsInt (jGet kvs "predicted_stars") with
        | some n =>
          by_cases hr : 1 ≤ n ∧ n ≤ 5
          · simp [hint, hr]
          · have hc := pyIntCoerce_of_pyIsInt hint
            simp [hint, hr, hc]
        | none =>
          cases hc : pyIntCoerce (jGet kvs "predicted_stars") with
          | none => simp [hint, hc]
          | some i => by_cases hr : 1 ≤ i ∧ i ≤ 5 <;> simp [hint, hc, hr]
      | null => simp [hj]
      | bool b => simp [hj]
      | jint n => simp [hj]
      | jfloat num den => simp [hj]
      | str t => simp [hj]
      | arr xs => simp [hj]

/-- A raw output with no brace pair is invalid with no prediction. -/
theorem parseRow_no_braces {s : String} (h : braceSub s = none) :
    parseRow s = (none, false) := by
  unfold parseRow
  rw [h]

/-! ## Lemmas about the worksheet primitives -/

theorem setCell_getD_self (r : List String) (j : Nat) (v : String) :
    (setCell r j v).getD j "" = v := by
  induction r generalizing j with
  | nil =>
    induction j with
    | zero => rfl
    | succ n ih => simpa [setCell] using ih
  | cons c cs ih =>
    cases j with
    | zero => rfl
    | succ n => simpa [setCell] using ih n

theorem setCell_getD_of_ne (r : List String) {j j' : Nat} (v : String) (h : j' ≠ j) :
    (setCell r j v).getD j' "" = r.getD j' "" := by
  induction r generalizing j j' with
  | nil =>
    induction j generalizing j' with
    | zero =>
      cases j' with
      | zero => exact absurd rfl h
      | succ m => simp [setCell]
    | succ n ih =>
      cases j' with
      | zero => simp [setCell]
      | succ m =>
        have h2 : m ≠ n := by omega
        simpa [setCell] using ih h2
  | cons c cs ih =>
    cases j with
    | zero =>
      cases j' with
      | zero => exact absurd rfl h
      | succ m => simp [setCell]
    | succ n =>
      cases j' with
      | zero => simp [setCell]
      | succ m =>
        have h2 : m ≠ n := by omega
        simpa [setCell] using ih h2

theorem setRow_length (rs : List (List String)) (i : Nat) (f : List String → List String) :
    (setRow rs i f).length = rs.length := by
  induction rs generalizing i with
  | nil => rfl
  | cons r rs ih =>
    cases i with
    | zero => rfl
    | succ n => simpa [setRow] using ih n

theorem setRow_getD_of_ne (rs : List (List String)) {i i' : Nat}
    (f : List String → List String) (h : i' ≠ i) :
    (setRow rs i f).getD i' [] = rs.getD i' [] := by
  induction rs generalizing i i' with
  | nil => rfl
  | cons r rs ih =>
    cases i with
    | zero =>
      cases i' with
      | zero => exact absurd rfl h
      | succ m => simp [setRow]
    | succ n =>
      cases i' with
      | zero => simp [setRow]
      | succ m =>
        have h2 : m ≠ n := by omega
        simpa [setRow] using ih h2

theorem setRow_getD_self_of_lt (rs : List (List String)) {i : Nat}
    (f : List String → List String) (h : i < rs.length) :
    (setRow rs i f).getD i [] = f (rs.getD i []) := by
  induction rs generalizing i with
  | nil => simp at h
  | cons r rs ih =>
    cases i with
    | zero => rfl
    | succ n =>
      have h2 : n < rs.length := by simpa using h
      simpa [setRow] using ih h2

theorem setRow_of_ge (rs : List (List String)) {i : Nat}
    (f : List String → List String) (h : rs.length ≤ i) :
    setRow rs i f = rs := by
  induction rs generalizing i with
  | nil => rfl
  | cons r rs ih =>
    cases i with
    | zero => simp at h
    | succ n =>
      have h2 : rs.length ≤ n := by simpa using h
      simp [setRow, ih h2]

/-- Cell frame for a single in-place row edit: editing column `j` of row `i`
leaves every other column of row `i` unchanged. -/
theorem setRow_setCell_getD_of_ne (rs : List (List String)) {i j c : Nat} (v : String)
    (h : c ≠ j) :
    ((setRow rs i (fun r => setCell r j v)).getD i []).getD c "" =
      (rs.getD i []).getD c "" := by
  rcases Nat.lt_or_ge i rs.length with hlt | hge
  · rw [setRow_getD_self_of_lt rs _ hlt, setCell_getD_of_ne _ _ h]
  · rw [setRow_of_ge rs _ hge]

theorem idxOf?_eq_some {a : String} {l : List String} {j : Nat}
    (h : idxOf? a l = some j) : j < l.length ∧ l.getD j "" = a := by
  induction l generalizing j with
  | nil => simp [idxOf?] at h
  | cons b t ih =>
    by_cases hb : b = a
    · simp [idxOf?, hb] at h
      subst h
      simp [hb]
    · simp only [idxOf?, beq_iff_eq, if_neg hb, Option.map_eq_some'] at h
      obtain ⟨j0, hj0, rfl⟩ := h
      obtain ⟨hlt, hget⟩ := ih hj0
      constructor
      · simpa using hlt
      · simpa using hget

theorem idxOf?_eq_none {a : String} {l : List String} (h : a ∉ l) :
    idxOf? a l = none := by
  induction l with
  | nil => rfl
  | cons b t ih =>
    have hb : b ≠ a := fun hba => h (hba ▸ List.mem_cons_self b t)
    have ht : a ∉ t := fun hat => h (List.mem_cons_of_mem b hat)
    simp [idxOf?, hb, ih ht]

theorem findIdxM_lt {p : List String → Bool} {rs : List (List String)} {i : Nat}
    (h : findIdxM p rs = some i) : i < rs.length := by
  induction rs generalizing i with
  | nil => simp [findIdxM] at h
  | cons r rs ih =>
    by_cases hp : p r = true
    · simp [findIdxM, hp] at h
      subst h
      simp
    · simp only [findIdxM, if_neg hp, Option.map_eq_some'] at h
      obtain ⟨i0, hi0, rfl⟩ := h
      have := ih hi0
      simpa using Nat.succ_lt_succ this

theorem findIdxM_none {p : List String → Bool} {rs : List (List String)}
    (h : ∀ r ∈ rs, p r = false) : findIdxM p rs = none := by
  induction rs with
  | nil => rfl
  | cons r rs ih =>
    have hr := h r (List.mem_cons_self r rs)
    have ht : ∀ x ∈ rs, p x = false := fun x hx => h x (List.mem_cons_of_mem r hx)
    simp [findIdxM, hr, ih ht]

theorem findIdxM_append {p : List String → Bool} (pre : List (List String))
    (r : List String) (post : List (List String))
    (hpre : ∀ x ∈ pre, p x = false) (hr : p r = true) :
    findIdxM p (pre ++ r :: post) = some pre.length := by
  induction pre with
  | nil => simp [findIdxM, hr]
  | cons q qs ih =>
    have hq := hpre q (List.mem_cons_self q qs)
    have hqs : ∀ x ∈ qs, p x = false := fun x hx => hpre x (List.mem_cons_of_mem q hx)
    simp [findIdxM, hq, ih hqs]

theorem getD_append_self (pre : List (List String)) (r : List String)
    (post : List (List String)) :
    (pre ++ r :: post).getD pre.length [] = r := by
  induction pre with
  | nil => rfl
  | cons q qs ih => simpa using ih

theorem getD_map_of_lt {α β : Type} [Inhabited β] (f : α → β) (l : List α)
    (d1 : β) (d2 : α) {i : Nat} (h : i < l.length) :
    (l.map f).getD i d1 = f (l.getD i d2) := by
  induction l generalizing i with
  | nil => simp at h
  | cons a t ih =>
    cases i with
    | zero => rfl
    | succ n =>
      have h2 : n < t.length := by simpa using h
      simpa using ih h2

theorem update_cell_header {ws : Worksheet} {rowIdx : Nat} (colIdx : Nat) (v : String)
    (h2 : 2 ≤ rowIdx) : (update_cell ws rowIdx colIdx v).header = ws.header := by
  unfold update_cell
  rw [if_neg (by omega)]

theorem update_cell_rows {ws : Worksheet} {rowIdx : Nat} (colIdx : Nat) (v : String)
    (h2 : 2 ≤ rowIdx) :
    (update_cell ws rowIdx colIdx v).rows =
      setRow ws.rows (rowIdx - 2) (fun r => setCell r (colIdx - 1) v) := by
  unfold update_cell
  rw [if_neg (by omega)]

theorem applyUpdates_header (header : List String) {rowIdx : Nat} (h2 : 2 ≤ rowIdx)
    (us : List (String × String)) (ws : Worksheet) :
    (applyUpdates header rowIdx us ws).header = ws.header := by
  induction us generalizing ws with
  | nil => rfl
  | cons kv rest ih =>
    obtain ⟨k, v⟩ := kv
    simp only [applyUpdates]
    cases hk : idxOf? k header with
    | none => simpa using ih ws
    | some j =>
      rw [ih, update_cell_header _ _ h2]

theorem applyUpdates_rows_length (header : List String) {rowIdx : Nat} (h2 : 2 ≤ rowIdx)
    (us : List (String × String)) (ws : Worksheet) :
    (applyUpdates header rowIdx us ws).rows.length = ws.rows.length := by
  induction us generalizing ws with
  | nil => rfl
  | cons kv rest ih =>
    obtain ⟨k, v⟩ := kv
    simp only [applyUpdates]
    cases hk : idxOf? k header with
    | none => simpa using ih ws
    | some j =>
      rw [ih, update_cell_rows _ _ h2, setRow_length]

theorem applyUpdates_rows_getD_of_ne (header : List String) {rowIdx : Nat} (h2 : 2 ≤ rowIdx)
    (us : List (String × String)) (ws : Worksheet) {i : Nat} (hi : i ≠ rowIdx - 2) :
    (applyUpdates header rowIdx us ws).rows.getD i [] = ws.rows.getD i [] := by
  induction us generalizing ws with
  | nil => rfl
  | cons kv rest ih =>
    obtain ⟨k, v⟩ := kv
    simp only [applyUpdates]
    cases hk : idxOf? k header with
    | none => simpa using ih ws
    | some j =>
      rw [ih, update_cell_rows _ _ h2, setRow_getD_of_ne _ _ hi]

theorem applyUpdates_target_getD_of_ne (header : List String) {rowIdx : Nat}
    (h2 : 2 ≤ rowIdx) (us : List (String × String)) (ws : Worksheet) {c : Nat}
    (hc : ∀ kv ∈ us, idxOf? kv.1 header ≠ some c) :
    ((applyUpdates header rowIdx us ws).rows.getD (rowIdx - 2) []).getD c "" =
      (ws.rows.getD (rowIdx - 2) []).getD c "" := by
  induction us generalizing ws with
  | nil => rfl
  | cons kv rest ih =>
    obtain ⟨k, v⟩ := kv
    have hck : idxOf? k header ≠ some c := hc (k, v) (List.mem_cons_self _ _)
    have hcr : ∀ kv ∈ rest, idxOf? kv.1 header ≠ some c :=
      fun kv hm => hc kv (List.mem_cons_of_mem _ hm)
    simp only [applyUpdates]
    cases hk : idxOf? k header with
    | none => simpa using ih ws hcr
    | some j =>
      have hjc : c ≠ j := by
        intro hEq
        exact hck (hEq ▸ hk)
      rw [ih _ hcr, update_cell_rows _ _ h2]
      simpa using setRow_setCell_getD_of_ne ws.rows (i := rowIdx - 2) v hjc

theorem applyUpdates_target_getD_write (header : List String) {rowIdx : Nat}
    (h2 : 2 ≤ rowIdx) (us : List (String × String)) (ws : Worksheet)
    (hnd : (us.map Prod.fst).Nodup) {k v : String} {j : Nat}
    (hmem : (k, v) ∈ us) (hj : idxOf? k header = some j)
    (hlt : rowIdx - 2 < ws.rows.length) :
    ((applyUpdates header rowIdx us ws).rows.getD (rowIdx - 2) []).getD j "" = v := by
  induction us generalizing ws with
  | nil => cases hmem
  | cons kv rest ih =>
    obtain ⟨k0, v0⟩ := kv
    have hndc : k0 ∉ rest.map Prod.fst ∧ (rest.map Prod.fst).Nodup :=
      List.nodup_cons.mp (by simpa using hnd)
    rcases List.mem_cons.mp hmem with heq | hmemr
    · injection heq with hk hv
      subst hk
      subst hv
      simp only [applyUpdates, hj]
      have hrest : ∀ kv ∈ rest, idxOf? kv.1 header ≠ some j := by
        intro kv hm hEq
        have e1 := (idxOf?_eq_some hj).2
        have e2 := (idxOf?_eq_some hEq).2
        have hkv : kv.1 = k := by rw [← e2, e1]
        exact hndc.1 (hkv ▸ List.mem_map_of_mem Prod.fst hm)
      rw [applyUpdates_target_getD_of_ne header h2 rest _ hrest]
      rw [update_cell_rows _ _ h2]
      simp only [Nat.add_sub_cancel]
      rw [setRow_getD_self_of_lt _ _ hlt, setCell_getD_self]
    · simp only [applyUpdates]
      cases hk0 : idxOf? k0 header with
      | none => simpa using ih ws hndc.2 hmemr hlt
      | some j0 =>
        apply ih _ hndc.2 hmemr
        rw [update_cell_rows _ _ h2, setRow_length]
        exact hlt

/-! ## Helper facts for the submit handler -/

/-- When the review survives validation and every Gateway call reports
failure, the enriched record is exactly the three fallback artifacts. -/
theorem submitReview_enriched_allFail (gw : String → Bool × String)
    (freshId now : String) (rating : Int) (review : String) (st0 : PipeStore)
    (hrev : pyStrip review ≠ "") (hgw : ∀ p, (gw p).1 = false) :
    (submitReview gw freshId now rating review st0).enriched =
      some { id := freshId, timestamp := now, rating := rating, review := review,
             ai_response := fallbackReply,
             ai_summary := pySlice (pyStrip review) 200,
             ai_actions := fallbackActions review } := by
  unfold submitReview
  rw [if_neg hrev]
  cases hst : st0.appendError <;> simp [hgw]

/-! ## The claims -/

/-- C1 (amended): with a rating in `[1,5]`, a review that survives
validation, and a Gateway that fails on all three calls, the Submission's
`ai_response` is the fixed fallback message, `ai_summary` is
`review.strip()[:200]` (the review is stripped before truncation), and
`ai_actions` is the newline-joined list of bullets of the keyword rules
`{slow/wait/delay}`, `{cold/undercooked/burnt/temperature}`,
`{rude/unfriendly/hostile}` matching the lower-cased review in
rule-declaration order, or the single generic bullet when none matches —
hence nonempty. -/
theorem C1_fallback_artifacts (gw : String → Bool × String)
    (freshId now : String) (rating : Int) (review : String) (st0 : PipeStore)
    (hrate : 1 ≤ rating ∧ rating ≤ 5)
    (hrev : pyStrip review ≠ "") (hgw : ∀ p, (gw p).1 = false) :
    (submitReview gw freshId now rating review st0).enriched.map Row.ai_response =
        some fallbackReply
  ∧ (submitReview gw freshId now rating review st0).enriched.map Row.ai_summary =
        some (pySlice (pyStrip review) 200)
  ∧ (submitReview gw freshId now rating review st0).enriched.map Row.ai_actions =
        some (claimActions review)
  ∧ (submitReview gw freshId now rating review st0).enriched.map Row.ai_actions ≠
        some "" := by
  have he := submitReview_enriched_allFail gw freshId now rating review st0 hrev hgw
  rw [he]
  refine ⟨rfl, rfl, ?_, ?_⟩
  · simp [fallbackActions_eq_claimActions]
  · simp
    exact fallbackActions_ne_empty review

/-- C1 witness: the spec's own example review at rating 2 under a failing
Gateway, with the actions fallback produced by the spec-side rule list. -/
theorem C1_fallback_artifacts_witness :
    (submitReview (fun _ => (false, "down")) "id-1" "t-1" 2
        "Service was very slow and the table was dirty." ⟨[], none, none⟩).enriched.map
        Row.ai_actions =
      some (claimActions "Service was very slow and the table was dirty.") :=
  (C1_fallback_artifacts (fun _ => (false, "down")) "id-1" "t-1" 2
    "Service was very slow and the table was dirty." ⟨[], none, none⟩
    (by decide) (by decide) (fun p => rfl)).2.2.1

/-- C1 counterexample: for the non-empty review `" Great service"` under an
all-failing Gateway, the stored `ai_summary` is the stripped text
`"Great service"`, which differs from `review[:200] = " Great service"`:
the claim's "review[:200] unmodified" is false on the code. -/
theorem C1_counterexample_summary_stripped :
    (submitReview (fun _ => (false, "down")) "id-1" "t-1" 2 " Great service"
        ⟨[], none, none⟩).enriched.map Row.ai_summary = some "Great service"
  ∧ pySlice " Great service" 200 = " Great service"
  ∧ ("Great service" : String) ≠ " Great service" := by
  refine ⟨by decide, by decide, by decide⟩

/-- C2: the transport boundary. The bundled fact records what the code
actually does: a transport failure on the first attempt is not retried —
the internal `try/except` swallows the exception before the `@retry`
decorator can see it, so exactly one attempt is consumed and the call
returns `ok=false` with the fixed `ERROR:` marker; in general every call
returns normally (never raises) after exactly one attempt. -/
theorem C2_single_attempt_no_retry :
    (genai_generate_text
        { generateContent := fun attempt _ =>
            if attempt = 0 then .raises "ConnectionError: boom"
            else .returns (.plainStr "All good"),
          hasGenerate := false, generate := fun _ => .raises "AttributeError",
          hasModelsGenerate := false, modelsGenerate := fun _ => .raises "AttributeError" }
        "any prompt" 0 250 =
      (.ok (false,
        "ERROR: Gemini call failed: ConnectionError: boom. See logs/last_genai_error.txt"), 1))
  ∧ (∀ (c : GenaiClient) (prompt : String) (t : Rat) (m : Nat),
      ∃ res : Bool × String, genai_generate_text c prompt t m = (PyResult.ok res, 1)) := by
  refine ⟨rfl, ?_⟩
  intro c prompt t m
  exact ⟨genaiAttempt c 0 prompt, rfl⟩

/-- C3: an empty or whitespace-only review is rejected before anything else
happens — zero Gateway calls, no enriched record (no id/timestamp), store
untouched, and only the validation warning surfaced. -/
theorem C3_whitespace_rejected (gw : String → Bool × String)
    (freshId now : String) (rating : Int) (review : String) (st0 : PipeStore)
    (h : pyStrip review = "") :
    submitReview gw freshId now rating review st0 =
      { outcome := .rejected, enriched := none, gatewayCalls := 0, store := st0,
        messages := ["Please write a short review before submitting."] } := by
  unfold submitReview
  rw [if_pos h]

/-- C3 witness: a whitespace-only review with a live Gateway and a sample
store state. -/
theorem C3_whitespace_rejected_witness :
    submitReview (fun _ => (true, "hello")) "f-1" "n-1" 4 " \t\n " ⟨[], none, none⟩ =
      { outcome := .rejected, enriched := none, gatewayCalls := 0,
        store := ⟨[], none, none⟩,
        messages := ["Please write a short review before submitting."] } :=
  C3_whitespace_rejected (fun _ => (true, "hello")) "f-1" "n-1" 4 " \t\n " ⟨[], none, none⟩
    (by decide)

/-- C4: when the Store append raises, the enriched record is appended to the
local backup collection (created if absent, previous rows preserved), the
remote rows are untouched, the interaction ends in the degraded
`backedUp` state, and the non-fatal backup notice is surfaced. -/
theorem C4_local_backup (gw : String → Bool × String) (freshId now : String)
    (rating : Int) (review : String) (st0 : PipeStore) (e : String)
    (hrev : pyStrip review ≠ "") (herr : st0.appendError = some e) :
    (submitReview gw freshId now rating review st0).store.remote = st0.remote
  ∧ (∃ r : Row, (submitReview gw freshId now rating review st0).enriched = some r
      ∧ (submitReview gw freshId now rating review st0).outcome = SubmitOutcome.backedUp r
      ∧ (submitReview gw freshId now rating review st0).store.backup =
          some (st0.backup.getD [] ++ [r]))
  ∧ "Saved to local backup: data/submissions_backup.csv" ∈
      (submitReview gw freshId now rating review st0).messages := by
  unfold submitReview
  rw [if_neg hrev, herr]
  exact ⟨rfl, ⟨_, rfl, rfl, rfl⟩, by simp⟩

/-- A sample already-backed-up record, used in witnesses. -/
def sampleBackupRow : Row :=
  { id := "old", timestamp := "t0", rating := 1, review := "r0",
    ai_response := "a", ai_summary := "b", ai_actions := "c" }

/-- A sample store whose append raises, holding one backed-up row. -/
def sampleFailingStore : PipeStore :=
  { remote := [], appendError := some "APIError: quota", backup := some [sampleBackupRow] }

/-- C4 witness: a failing append over a store that already holds one
backed-up row; the backup notice is among the surfaced messages. -/
theorem C4_local_backup_witness :
    "Saved to local backup: data/submissions_backup.csv" ∈
      (submitReview (fun _ => (true, "ok")) "f-2" "n-2" 5 "lovely"
        sampleFailingStore).messages :=
  (C4_local_backup (fun _ => (true, "ok")) "f-2" "n-2" 5 "lovely"
    sampleFailingStore "APIError: quota" (by decide) rfl).2.2

/-- C5: with exactly one matching row, `update_fields` returns `true`,
keeps the header, the row count, every other row, and every cell of the
target row whose field name is not an update key; and each update key
present in the schema header gets its new value written at that column. -/
theorem C5_update_only_named_fields (ws : Worksheet) (subId : String)
    (updates : List (String × String)) (pre post : List (List String)) (r : List String)
    (hrows : ws.rows = pre ++ r :: post)
    (hpre : ∀ x ∈ pre, idMatches ws.header subId x = false)
    (hr : idMatches ws.header subId r = true)
    (hpost : ∀ x ∈ post, idMatches ws.header subId x = false)
    (hnd : (updates.map Prod.fst).Nodup) :
    (update_submission_by_id ws subId updates).1 = true
  ∧ (update_submission_by_id ws subId updates).2.header = ws.header
  ∧ (update_submission_by_id ws subId updates).2.rows.length = ws.rows.length
  ∧ (∀ i, i ≠ pre.length →
      (update_submission_by_id ws subId updates).2.rows.getD i [] = ws.rows.getD i [])
  ∧ (∀ c : Nat, ws.header.getD c "" ∉ updates.map Prod.fst →
      ((update_submission_by_id ws subId updates).2.rows.getD pre.length []).getD c "" =
        r.getD c "")
  ∧ (∀ kv ∈ updates, ∀ j, idxOf? kv.1 ws.header = some j →
      ((update_submission_by_id ws subId updates).2.rows.getD pre.length []).getD j "" =
        kv.2) := by
  have hne : ws.rows.isEmpty = false := by
    rw [hrows]
    cases pre <;> simp
  have hfind : findIdxM (idMatches ws.header subId) ws.rows = some pre.length := by
    rw [hrows]
    exact findIdxM_append pre r post hpre hr
  have hres : update_submission_by_id ws subId updates =
      (true, applyUpdates ws.header (pre.length + 2) updates ws) := by
    unfold update_submission_by_id
    simp [hne, hfind]
  have h2 : 2 ≤ pre.length + 2 := by omega
  have hgetr : ws.rows.getD pre.length [] = r := by
    rw [hrows]
    exact getD_append_self pre r post
  rw [hres]
  refine ⟨rfl, applyUpdates_header ws.header h2 updates ws,
    applyUpdates_rows_length ws.header h2 updates ws, ?_, ?_, ?_⟩
  · intro i hi
    exact applyUpdates_rows_getD_of_ne ws.header h2 updates ws (i := i) hi
  · intro c hc
    have hc2 : ∀ kv ∈ updates, idxOf? kv.1 ws.header ≠ some c := by
      intro kv hm hEq
      have hget := (idxOf?_eq_some hEq).2
      exact hc (hget ▸ List.mem_map_of_mem Prod.fst hm)
    have hfr := applyUpdates_target_getD_of_ne ws.header h2 updates ws (c := c) hc2
    simp only [Nat.add_sub_cancel] at hfr
    rw [hfr, hgetr]
  · intro kv hm j hj
    apply applyUpdates_target_getD_write ws.header h2 updates ws hnd hm hj
    rw [hrows]
    simp

/-- C5 witness: updating only `ai_summary` of the second of two rows writes
`"X"` into that row's `ai_summary` column. -/
theorem C5_update_only_named_fields_witness :
    ((update_submission_by_id
        ⟨expectedCols, [["a", "t1", "5", "r1", "x1", "y1", "z1"],
                        ["b", "t2", "3", "r2", "x2", "y2", "z2"]]⟩
        "b" [("ai_summary", "X")]).2.rows.getD 1 []).getD 5 "" = "X" :=
  (C5_update_only_named_fields
    ⟨expectedCols, [["a", "t1", "5", "r1", "x1", "y1", "z1"],
                    ["b", "t2", "3", "r2", "x2", "y2", "z2"]]⟩
    "b" [("ai_summary", "X")]
    [["a", "t1", "5", "r1", "x1", "y1", "z1"]] []
    ["b", "t2", "3", "r2", "x2", "y2", "z2"]
    rfl (by decide) (by decide) (by decide) (by decide)).2.2.2.2.2
    ("ai_summary", "X") (by decide) 5 (by decide)

/-- C6: when no row's `id` matches (including the empty store),
`update_fields` returns `false` and the worksheet is unchanged. -/
theorem C6_unknown_id_no_mutation (ws : Worksheet) (subId : String)
    (updates : List (String × String))
    (h : ∀ row ∈ ws.rows, idMatches ws.header subId row = false) :
    update_submission_by_id ws subId updates = (false, ws) := by
  unfold update_submission_by_id
  have hfind := findIdxM_none h
  by_cases he : ws.rows.isEmpty <;> simp [he, hfind]

/-- C6 witness: an unknown id against a one-row store. -/
theorem C6_unknown_id_no_mutation_witness :
    update_submission_by_id ⟨expectedCols, [["a", "t1", "5", "r1", "x1", "y1", "z1"]]⟩
        "zzz" [("ai_summary", "X")] =
      (false, ⟨expectedCols, [["a", "t1", "5", "r1", "x1", "y1", "z1"]]⟩) :=
  C6_unknown_id_no_mutation ⟨expectedCols, [["a", "t1", "5", "r1", "x1", "y1", "z1"]]⟩
    "zzz" [("ai_summary", "X")] (by decide)

/-- C9: `sheet_to_df` always reports the fixed expected column set; an empty
backing store yields the empty row sequence rather than an error; rows come
back one-for-one in insertion order; a cell under a header column is the
original cell, and a cell under an expected column missing from the header
materializes as `""`. -/
theorem C9_list_all_shape (ws : Worksheet) :
    (sheet_to_df ws).1 = expectedCols
  ∧ (ws.rows = [] → (sheet_to_df ws).2 = [])
  ∧ (sheet_to_df ws).2.length = ws.rows.length
  ∧ (∀ i, i < ws.rows.length → ∀ k j, k < expectedCols.length →
      idxOf? (expectedCols.getD k "") ws.header = some j →
      ((sheet_to_df ws).2.getD i []).getD k "" = (ws.rows.getD i []).getD j "")
  ∧ (∀ i, i < ws.rows.length → ∀ k, k < expectedCols.length →
      expectedCols.getD k "" ∉ ws.header →
      ((sheet_to_df ws).2.getD i []).getD k "" = "") := by
  by_cases hE : ws.rows = []
  · refine ⟨?_, ?_, ?_, ?_, ?_⟩ <;> simp [sheet_to_df, hE]
  · have hdf : sheet_to_df ws =
        (expectedCols,
          ws.rows.map (fun r =>
            expectedCols.map (fun c =>
              match idxOf? c ws.header with
              | some j => r.getD j ""
              | none => ""))) := by
      unfold sheet_to_df
      rw [if_neg hE]
    refine ⟨by rw [hdf], fun h => absurd h hE, by rw [hdf]; simp, ?_, ?_⟩
    · intro i hi k j hk hj
      rw [hdf]
      simp only
      rw [getD_map_of_lt _ _ _ [] hi, getD_map_of_lt _ _ _ "" hk, hj]
    · intro i hi k hk hmem
      rw [hdf]
      simp only
      rw [getD_map_of_lt _ _ _ [] hi, getD_map_of_lt _ _ _ "" hk,
        idxOf?_eq_none hmem]

/-- C9 witness: a backing store whose header lacks `ai_summary`; the
materialized cell for that column is `""`. -/
theorem C9_list_all_shape_witness :
    ((sheet_to_df ⟨["id", "rating"], [["a", "5"]]⟩).2.getD 0 []).getD 5 "" = "" :=
  (C9_list_all_shape ⟨["id", "rating"], [["a", "5"]]⟩).2.2.2.2 0 (by decide) 5
    (by decide) (by decide)

/-- C7 (amended): a row is valid iff the first-`\x7b`-to-last-`\x7d`
substring parses as a JSON object whose `predicted_stars`, seen through
Python's int view and `int()` coercion (ints and bools directly, floats
truncated toward zero, numeric strings parsed), lands in `[1,5]`; the
spec's leading-sentiment example extracts `4` and is valid; and a raw
output with no brace pair is invalid with no prediction. -/
theorem C7_parse_and_validity (s : String) :
    (parseRow s).2 = specValidity s
  ∧ parseRow "Sentiment: positive\n\x7b\"predicted_stars\": 4, \"explanation\":\"ok\"\x7d" =
      (some 4, true)
  ∧ (braceSub s = none → parseRow s = (none, false)) :=
  ⟨parseRow_snd_eq_specValidity s, by decide, parseRow_no_braces⟩

/-- C7 witness: a brace-free raw output is marked invalid with no
prediction. -/
theorem C7_parse_and_validity_witness :
    parseRow "no braces here" = (none, false) :=
  (C7_parse_and_validity "no braces here").2.2 (by decide)

/-- C7 counterexample: for the raw output whose `predicted_stars` is the
float `4.7` — neither an integer in `[1,5]` nor a numeric string — the code
coerces it with `int()` and marks the row valid with prediction `4`,
contradicting the claim's "integer in `[1,5]`, accepting numeric-string
coercion" characterization (formalized as `claimValidityStrict`). -/
theorem C7_counterexample_float_star :
    parseRow "\x7b\"predicted_stars\": 4.7\x7d" = (some 4, true)
  ∧ claimValidityStrict "\x7b\"predicted_stars\": 4.7\x7d" = false :=
  ⟨by decide, by decide⟩

/-- C8: per template, `json_valid_rate` is the valid count over the whole
sample size (invalid rows counted in the denominator); accuracy is the
fraction of correct predictions among valid rows only; and with zero valid
rows accuracy is reported as absent — not as zero and not as an error. -/
theorem C8_summary_metrics (stars : List Int) (outs : List String)
    (hn : 0 < (evalRows stars outs).length) :
    (summaryFor (evalRows stars outs)).1 =
      ((evalRows stars outs).countP (·.valid) : Rat) /
        ((evalRows stars outs).length : Rat)
  ∧ ((evalRows stars outs).countP (·.valid) = 0 →
      (summaryFor (evalRows stars outs)).2 = none)
  ∧ (0 < (evalRows stars outs).countP (·.valid) →
      (summaryFor (evalRows stars outs)).2 =
        some (((evalRows stars outs).countP
            (fun er => (er.pred == some er.true_stars) && er.valid) : Rat) /
          ((evalRows stars outs).countP (·.valid) : Rat))) := by
  generalize evalRows stars outs = rows at *
  refine ⟨?_, ?_, ?_⟩
  · simp [summaryFor, jsonValidRateOf, List.countP_eq_length_filter]
  · intro h0
    have hlen : (rows.filter (·.valid)).length = 0 := by
      rw [← List.countP_eq_length_filter]
      exact h0
    simp [summaryFor, accuracyOf, hlen]
  · intro hpos
    have hlen : 0 < (rows.filter (·.valid)).length := by
      rw [← List.countP_eq_length_filter]
      exact hpos
    simp only [summaryFor, accuracyOf]
    rw [if_pos hlen]
    congr 1
    rw [List.filter_filter]
    simp [List.countP_eq_length_filter]

/-- C8 witness: a two-row sample with one valid row; the rate halves over
the full sample and accuracy is computed over the single valid row. -/
theorem C8_summary_metrics_witness :
    (summaryFor (evalRows [4, 3] ["\x7b\"predicted_stars\": 4\x7d", "junk"])).2 =
      some (((evalRows [4, 3] ["\x7b\"predicted_stars\": 4\x7d", "junk"]).countP
          (fun er => (er.pred == some er.true_stars) && er.valid) : Rat) /
        ((evalRows [4, 3] ["\x7b\"predicted_stars\": 4\x7d", "junk"]).countP (·.valid) : Rat)) :=
  (C8_summary_metrics [4, 3] ["\x7b\"predicted_stars\": 4\x7d", "junk"]
    (by decide)).2.2 (by decide)

/-- C10: `genai_generate_text` never forwards `temperature` or
`max_output_tokens` to the remote call, so for any fixed service behavior
the result is identical across any two choices of those arguments. -/
theorem C10_sampling_params_not_forwarded (c : GenaiClient) (prompt : String)
    (t1 t2 : Rat) (m1 m2 : Nat) :
    genai_generate_text c prompt t1 m1 = genai_generate_text c prompt t2 m2 := rfl

end Fynd
